import Mathlib

set_option maxRecDepth 40000

/-
  Verification development for the podcast-reader repository.

  Texts (Python `str`) are modelled as `List Char`.  The functions below are
  shallow embeddings of:
    - `_dividir_en_bloques`      (src/diarizador.py, lines 14-40)
    - `diarizar_transcripcion`   (src/diarizador.py, lines 132-195)
    - the labeled-transcript step of `main`  (src/main.py, lines 83-146)

  The generative backend is modelled as an oracle function
  `Nat -> Nat -> Texto -> Texto` giving the response text for
  (block index, block total, block text); a `None`/exception response from the
  API is indistinguishable in the code from an empty response (both end in the
  same wrapped RuntimeError), so it is modelled as returning the empty text.
  Python floats on the ratio path are modelled as rationals, and
  `int(x)` as truncation toward zero (`pyInt`).  The output file write is
  modelled as an atomic single-slot cache (`Option Texto`), with a flag
  `writeOk` saying whether the write to disk succeeds; a failing write raises
  an `OSError`, which is not a `RuntimeError`.
-/

abbrev Texto := List Char

/-- Python `str.split()` / `str.strip()` whitespace (ASCII subset). -/
def esEspacio (c : Char) : Bool :=
  c = ' ' || c = '\t' || c = '\n' || c = '\r' || c = '\x0b' || c = '\x0c'

/-- Accumulator-passing core of Python `str.split()`: `acc` holds the
current word's characters in reverse. -/
def pySplitAux : List Char → List Char → List Texto
  | [], acc => if acc = [] then [] else [acc.reverse]
  | c :: cs, acc =>
      if esEspacio c then
        if acc = [] then pySplitAux cs []
        else acc.reverse :: pySplitAux cs []
      else pySplitAux cs (c :: acc)

/-- Python `texto.split()`: split on whitespace runs, dropping empties. -/
def pySplit (t : Texto) : List Texto := pySplitAux t []

/-- Python `texto.strip()`. -/
def pyStrip (t : Texto) : Texto :=
  ((t.dropWhile esEspacio).reverse.dropWhile esEspacio).reverse

/-- Python string join: `sep.join(partes)`. -/
def joinCon (sep : Texto) : List Texto → Texto
  | [] => []
  | [w] => w
  | w :: x :: ws => w ++ sep ++ joinCon sep (x :: ws)

/-- The word-accumulation loop of `_dividir_en_bloques`
(src/diarizador.py lines 27-38): `ba` is `bloque_actual`, `la` is
`largo_actual`; closed blocks are emitted in order as `" ".join(bloque_actual)`
(line 30/38). -/
def segLoop (mc : Nat) : List Texto → List Texto → Nat → List Texto
  | [], ba, _ => if ba = [] then [] else [joinCon [' '] ba]
  | p :: rest, ba, la =>
      if mc < la + (p.length + (if ba = [] then 0 else 1)) ∧ ba ≠ [] then
        joinCon [' '] ba :: segLoop mc rest [p] p.length
      else
        segLoop mc rest (ba ++ [p]) (la + (p.length + (if ba = [] then 0 else 1)))

/-- Embedding of `_dividir_en_bloques(texto, max_chars)` (src/diarizador.py lines 14-40):
split into words; if none, return `[]`; else greedily pack words into blocks. -/
def dividir_en_bloques (texto : Texto) (max_chars : Nat) : List Texto :=
  if pySplit texto = [] then [] else segLoop max_chars (pySplit texto) [] 0

/-- Proof device: `segLoop` with blocks kept as word lists instead of being
joined with spaces at emission time. -/
def segLoopW (mc : Nat) : List Texto → List Texto → Nat → List (List Texto)
  | [], ba, _ => if ba = [] then [] else [ba]
  | p :: rest, ba, la =>
      if mc < la + (p.length + (if ba = [] then 0 else 1)) ∧ ba ≠ [] then
        ba :: segLoopW mc rest [p] p.length
      else
        segLoopW mc rest (ba ++ [p]) (la + (p.length + (if ba = [] then 0 else 1)))

-- ------------------------------------------------------------------
-- Lemmas about pySplit / joinCon
-- ------------------------------------------------------------------

theorem pySplitAux_words_good (t : List Char) :
    ∀ acc, (∀ c ∈ acc, esEspacio c = false) →
      ∀ w ∈ pySplitAux t acc, w ≠ [] ∧ ∀ c ∈ w, esEspacio c = false := by
  induction t with
  | nil =>
      intro acc hacc w hw
      simp only [pySplitAux] at hw
      split at hw
      · simp at hw
      · rename_i hne
        simp only [List.mem_singleton] at hw
        subst hw
        refine ⟨by simpa using hne, ?_⟩
        intro c hc
        exact hacc c (List.mem_reverse.mp hc)
  | cons c cs ih =>
      intro acc hacc w hw
      simp only [pySplitAux] at hw
      by_cases hc : esEspacio c = true
      · rw [if_pos hc] at hw
        split at hw
        · exact ih [] (by simp) w hw
        · rename_i hne
          rcases List.mem_cons.mp hw with h | h
          · subst h
            refine ⟨by simpa using hne, ?_⟩
            intro d hd
            exact hacc d (List.mem_reverse.mp hd)
          · exact ih [] (by simp) w h
      · rw [if_neg hc] at hw
        refine ih (c :: acc) ?_ w hw
        intro d hd
        rcases List.mem_cons.mp hd with h | h
        · subst h; simpa using hc
        · exact hacc d h

theorem pySplitAux_append_ws (b : List Char) (c : Char) (hc : esEspacio c = true) :
    ∀ (a acc : List Char),
      pySplitAux (a ++ c :: b) acc = pySplitAux a acc ++ pySplitAux b [] := by
  intro a
  induction a with
  | nil =>
      intro acc
      simp only [List.nil_append, pySplitAux, if_pos hc]
      split <;> simp
  | cons d ds ih =>
      intro acc
      simp only [List.cons_append, pySplitAux]
      by_cases hd : esEspacio d = true
      · rw [if_pos hd, if_pos hd]
        split <;> simp [ih]
      · rw [if_neg hd, if_neg hd]
        exact ih (d :: acc)

theorem pySplitAux_no_ws (w : List Char) (hw : ∀ c ∈ w, esEspacio c = false) :
    ∀ acc, pySplitAux w acc =
      if acc = [] ∧ w = [] then [] else [acc.reverse ++ w] := by
  induction w with
  | nil =>
      intro acc
      simp only [pySplitAux, List.append_nil, and_true]
  | cons c cs ih =>
      intro acc
      have hc : esEspacio c = false := hw c (by simp)
      simp only [pySplitAux, hc, Bool.false_eq_true, if_false]
      rw [ih (fun d hd => hw d (by simp [hd])) (c :: acc)]
      simp

theorem pySplit_palabra (w : List Char) (hne : w ≠ [])
    (hw : ∀ c ∈ w, esEspacio c = false) : pySplit w = [w] := by
  unfold pySplit
  rw [pySplitAux_no_ws w hw []]
  simp [hne]

theorem pySplit_joinCon_espacios (ws : List Texto)
    (h : ∀ w ∈ ws, w ≠ [] ∧ ∀ c ∈ w, esEspacio c = false) :
    pySplit (joinCon [' '] ws) = ws := by
  induction ws with
  | nil => rfl
  | cons w rest ih =>
      cases rest with
      | nil =>
          have hw := h w (by simp)
          simpa [joinCon] using pySplit_palabra w hw.1 hw.2
      | cons x t =>
          have hjoin : joinCon [' '] (w :: x :: t) =
              w ++ ' ' :: joinCon [' '] (x :: t) := by
            simp [joinCon]
          rw [hjoin]
          unfold pySplit
          rw [pySplitAux_append_ws (joinCon [' '] (x :: t)) ' ' (by decide) w []]
          have hw := h w (by simp)
          have h1 : pySplitAux w [] = [w] := pySplit_palabra w hw.1 hw.2
          have h2 : pySplitAux (joinCon [' '] (x :: t)) [] = x :: t :=
            ih (fun u hu => h u (by simp [hu]))
          rw [h1, h2]
          simp

theorem pySplit_joinCon_bloques (W : List (List Texto))
    (h : ∀ ws ∈ W, ws ≠ [] ∧ ∀ w ∈ ws, w ≠ [] ∧ ∀ c ∈ w, esEspacio c = false) :
    pySplit (joinCon [' '] (W.map (joinCon [' ']))) = W.flatten := by
  induction W with
  | nil => rfl
  | cons ws W ih =>
      cases W with
      | nil =>
          simp only [List.map, joinCon, List.flatten]
          have hws := h ws (by simp)
          simpa using pySplit_joinCon_espacios ws hws.2
      | cons ws2 t =>
          have hjoin : joinCon [' '] ((ws :: ws2 :: t).map (joinCon [' '])) =
              joinCon [' '] ws ++ ' ' :: joinCon [' '] ((ws2 :: t).map (joinCon [' '])) := by
            simp [joinCon]
          rw [hjoin]
          unfold pySplit
          rw [pySplitAux_append_ws _ ' ' (by decide) (joinCon [' '] ws) []]
          have hws := h ws (by simp)
          have h1 : pySplitAux (joinCon [' '] ws) [] = ws :=
            pySplit_joinCon_espacios ws hws.2
          have h2 : pySplitAux (joinCon [' '] ((ws2 :: t).map (joinCon [' ']))) []
              = (ws2 :: t).flatten := ih (fun u hu => h u (by simp [hu]))
          rw [h1, h2]
          simp

-- ------------------------------------------------------------------
-- Lemmas about the segmenter
-- ------------------------------------------------------------------

theorem segLoop_eq_map (mc : Nat) (ps : List Texto) :
    ∀ ba la, segLoop mc ps ba la = (segLoopW mc ps ba la).map (joinCon [' ']) := by
  induction ps with
  | nil =>
      intro ba la
      simp only [segLoop, segLoopW]
      by_cases hb : ba = []
      · rw [if_pos hb, if_pos hb]
        rfl
      · rw [if_neg hb, if_neg hb]
        rfl
  | cons p rest ih =>
      intro ba la
      simp only [segLoop, segLoopW]
      by_cases hcond : mc < la + (p.length + (if ba = [] then 0 else 1)) ∧ ba ≠ []
      · rw [if_pos hcond, if_pos hcond]
        simp [ih]
      · rw [if_neg hcond, if_neg hcond]
        exact ih (ba ++ [p]) _

theorem segLoopW_flatten (mc : Nat) (ps : List Texto) :
    ∀ ba la, (segLoopW mc ps ba la).flatten = ba ++ ps := by
  induction ps with
  | nil =>
      intro ba la
      simp only [segLoopW]
      by_cases hb : ba = []
      · rw [if_pos hb]
        simp [hb]
      · rw [if_neg hb]
        simp
  | cons p rest ih =>
      intro ba la
      simp only [segLoopW]
      by_cases hcond : mc < la + (p.length + (if ba = [] then 0 else 1)) ∧ ba ≠ []
      · rw [if_pos hcond]
        simp [ih]
      · rw [if_neg hcond]
        rw [ih]
        simp

theorem segLoopW_bloques_nonempty (mc : Nat) (ps : List Texto) :
    ∀ ba la c, c ∈ segLoopW mc ps ba la → c ≠ [] := by
  induction ps with
  | nil =>
      intro ba la c hc
      simp only [segLoopW] at hc
      by_cases hb : ba = []
      · rw [if_pos hb] at hc
        simp at hc
      · rw [if_neg hb] at hc
        simp only [List.mem_singleton] at hc
        subst hc
        exact hb
  | cons p rest ih =>
      intro ba la c hc
      simp only [segLoopW] at hc
      by_cases hcond : mc < la + (p.length + (if ba = [] then 0 else 1)) ∧ ba ≠ []
      · rw [if_pos hcond] at hc
        rcases List.mem_cons.mp hc with h | h
        · subst h; exact hcond.2
        · exact ih [p] p.length c h
      · rw [if_neg hcond] at hc
        exact ih (ba ++ [p]) _ c hc

theorem joinCon_append_una (sep : Texto) (ba : List Texto) (p : Texto) :
    joinCon sep (ba ++ [p]) = if ba = [] then p else joinCon sep ba ++ sep ++ p := by
  induction ba with
  | nil => simp [joinCon]
  | cons x t ih =>
      cases t with
      | nil => simp [joinCon]
      | cons y u =>
          have h1 : joinCon sep ((x :: y :: u) ++ [p]) =
              x ++ sep ++ joinCon sep ((y :: u) ++ [p]) := by
            simp [joinCon]
          rw [h1, ih]
          simp [joinCon]

theorem segLoopW_presupuesto (mc : Nat) (ps : List Texto) :
    ∀ ba la, la = (joinCon [' '] ba).length →
      (ba = [] ∨ (joinCon [' '] ba).length ≤ mc ∨ ∃ w, ba = [w] ∧ mc < w.length) →
      ∀ c ∈ segLoopW mc ps ba la,
        (joinCon [' '] c).length ≤ mc ∨ ∃ w, c = [w] ∧ mc < w.length := by
  induction ps with
  | nil =>
      intro ba la hla hba c hc
      simp only [segLoopW] at hc
      by_cases hb : ba = []
      · rw [if_pos hb] at hc
        simp at hc
      · rw [if_neg hb] at hc
        simp only [List.mem_singleton] at hc
        subst hc
        rcases hba with h | h | h
        · exact absurd h hb
        · exact Or.inl h
        · exact Or.inr h
  | cons p rest ih =>
      intro ba la hla hba c hc
      simp only [segLoopW] at hc
      by_cases hcond : mc < la + (p.length + (if ba = [] then 0 else 1)) ∧ ba ≠ []
      · rw [if_pos hcond] at hc
        rcases List.mem_cons.mp hc with h | h
        · subst h
          rcases hba with h | h | h
          · exact absurd h hcond.2
          · exact Or.inl h
          · exact Or.inr h
        · refine ih [p] p.length (by simp [joinCon]) ?_ c h
          rcases le_or_lt p.length mc with hp | hp
          · exact Or.inr (Or.inl (by simpa [joinCon] using hp))
          · exact Or.inr (Or.inr ⟨p, rfl, hp⟩)
      · rw [if_neg hcond] at hc
        have hlen : (joinCon [' '] (ba ++ [p])).length =
            la + (p.length + (if ba = [] then 0 else 1)) := by
          rw [joinCon_append_una]
          by_cases hb : ba = []
          · rw [if_pos hb, if_pos hb]
            subst hb
            simp [joinCon] at hla
            simp [hla]
          · rw [if_neg hb, if_neg hb]
            simp [hla]
        refine ih (ba ++ [p]) _ hlen.symm ?_ c hc
        push_neg at hcond
        by_cases hb : ba = []
        · rcases le_or_lt p.length mc with hp | hp
          · refine Or.inr (Or.inl ?_)
            rw [hlen, if_pos hb]
            subst hb
            simp [joinCon] at hla
            simpa [hla] using hp
          · refine Or.inr (Or.inr ⟨p, by simp [hb], hp⟩)
        · have hle : la + (p.length + (if ba = [] then 0 else 1)) ≤ mc := by
            rcases le_or_lt (la + (p.length + (if ba = [] then 0 else 1))) mc with h | h
            · exact h
            · exact absurd (hcond h) hb
          refine Or.inr (Or.inl ?_)
          rw [hlen]
          exact hle

theorem dividir_en_bloques_eq_map (texto : Texto) (mc : Nat) (hw : pySplit texto ≠ []) :
    dividir_en_bloques texto mc = (segLoopW mc (pySplit texto) [] 0).map (joinCon [' ']) := by
  unfold dividir_en_bloques
  rw [if_neg hw]
  exact segLoop_eq_map mc (pySplit texto) [] 0

-- ------------------------------------------------------------------
-- Embedding of diarizar_transcripcion (src/diarizador.py, lines 132-195)
-- ------------------------------------------------------------------

/-- Kind of Python exception escaping `diarizar_transcripcion`: every failure
raised inside the function body itself is a `RuntimeError` (the
`except Exception` at line 180 rewraps everything); a failure of the output
file write (lines 184-190, outside the try) is an `OSError`, standing here for
any non-RuntimeError exception. -/
inductive PyExc
  | runtimeError
  | osError
deriving DecidableEq

/-- The labeling backend as an oracle: response text for
(block index, block total, block text).  Models
`cliente.models.generate_content(...)` followed by
`getattr(respuesta, "text", "") or ""` (lines 160-165); an API exception is
modelled as an empty response, which the code treats identically (both end in
the same wrapped `RuntimeError`). -/
abbrev Backend := Nat → Nat → Texto → Texto

/-- The per-block loop of `diarizar_transcripcion` (lines 157-170): for each
block, call the backend, strip the response, fail if it is empty, else collect
it.  Also returns the number of backend calls issued. -/
def procesarBloques (backend : Backend) (total : Nat) :
    Nat → List Texto → Except Unit (List Texto) × Nat
  | _, [] => (.ok [], 0)
  | indice, bloque :: resto =>
      if pyStrip (backend indice total bloque) = [] then (.error (), 1)
      else
        match procesarBloques backend total (indice + 1) resto with
        | (.error e, n) => (.error e, n + 1)
        | (.ok partes, n) => (.ok (pyStrip (backend indice total bloque) :: partes), n + 1)

/-- Embedding of `diarizar_transcripcion(transcripcion, ruta_salida)` (lines 132-195).
The output file is modelled as a single-slot cache (`Option Texto`) replaced
atomically; `writeOk` says whether the write succeeds.  Result components:
the outcome (`RuntimeError` for the blank-input, zero-blocks, empty-block and
completeness failures, all raised/wrapped as RuntimeError; `OSError` for a
failing write), the cache afterwards, and the number of backend calls.
The completeness gate (line 174) is
`len(texto_diarizado) < max(200, int(len(transcripcion) * 0.55))`,
with `int(len * 0.55)` modelled as `len * 55 / 100` in `Nat`. -/
def diarizar_transcripcion (transcripcion : Texto) (backend : Backend)
    (writeOk : Bool) (cache : Option Texto) :
    Except PyExc Texto × Option Texto × Nat :=
  if pyStrip transcripcion = [] then (.error .runtimeError, cache, 0)
  else if dividir_en_bloques transcripcion 14000 = [] then
    (.error .runtimeError, cache, 0)
  else
    match procesarBloques backend (dividir_en_bloques transcripcion 14000).length 1
        (dividir_en_bloques transcripcion 14000) with
    | (.error _, n) => (.error .runtimeError, cache, n)
    | (.ok partes, n) =>
        if (joinCon ['\n', '\n'] partes).length
            < max 200 (transcripcion.length * 55 / 100) then
          (.error .runtimeError, cache, n)
        else if writeOk then
          (.ok (joinCon ['\n', '\n'] partes), some (joinCon ['\n', '\n'] partes), n)
        else (.error .osError, cache, n)

/-- The spec's `sourceRatio`: labeled length over raw length. -/
def sourceRatio (etiquetado crudo : Texto) : ℚ :=
  (etiquetado.length : ℚ) / (crudo.length : ℚ)

-- ------------------------------------------------------------------
-- Embedding of the labeled-transcript step of main (src/main.py, lines 83-146)
-- ------------------------------------------------------------------

/-- Python `int()` on a rational: truncation toward zero. -/
def pyInt (q : ℚ) : ℤ := if q < 0 then -⌊-q⌋ else ⌊q⌋

/-- Python `patron in t` substring test. -/
def listaContiene (t patron : Texto) : Bool :=
  (List.range (t.length + 1)).any (fun i => patron.isPrefixOf (List.drop i t))

def etiquetaEntrevistador : Texto := "ENTREVISTADOR".data

def etiquetaInvitado : Texto := "INVITADO".data

/-- Lines 133-135: `"ENTREVISTADOR" in texto or "INVITADO" in texto`. -/
def contieneEtiquetas (t : Texto) : Bool :=
  listaContiene t etiquetaEntrevistador || listaContiene t etiquetaInvitado

/-- Line 41: `float(os.getenv("DIARIZATION_MIN_RATIO", "0.85"))` — the
externally supplied minimum ratio, default 0.85, used as parsed with no
range validation anywhere in main. -/
def leerRatioMinimo (valorEntorno : Option ℚ) : ℚ :=
  valorEntorno.getD (85 / 100)

/-- Outcome of the labeled-transcript step of `main`. -/
inductive ErrorPaso
  | fatalDiarizacion
  | sinEtiquetas
  | ratioInsuficiente
  | osError
deriving DecidableEq

structure PasoSalida where
  resultado : Except ErrorPaso Texto
  cacheFinal : Option Texto
  llamadas : Nat

/-- The regeneration attempt with its fallback policy (the three identical
try/except blocks of main.py at lines 90-100, 106-116, 119-129): call
`diarizar_transcripcion`; on `RuntimeError`, substitute the raw transcript if
the fallback flag is set, else fail fatally; any other exception propagates. -/
def regenerarDiarizacion (cruda : Texto) (backend : Backend) (writeOk : Bool)
    (cache : Option Texto) (fallback : Bool) : PasoSalida :=
  match diarizar_transcripcion cruda backend writeOk cache with
  | (.ok texto, c2, n) => ⟨.ok texto, c2, n⟩
  | (.error .runtimeError, c2, n) =>
      if fallback then ⟨.ok cruda, c2, n⟩ else ⟨.error .fatalDiarizacion, c2, n⟩
  | (.error .osError, c2, n) => ⟨.error .osError, c2, n⟩

/-- The cached-artifact decision of main.py lines 83-129: a cached labeled
transcript is reused unless it is blank (line 88) or its stripped length is
below `int(len(cruda.strip()) * ratio_minimo)` (line 101); otherwise
regeneration is attempted. -/
def decisionCache (cruda : Texto) (cache : Option Texto) (ratio_minimo : ℚ)
    (backend : Backend) (writeOk : Bool) (fallback : Bool) : PasoSalida :=
  match cache with
  | none => regenerarDiarizacion cruda backend writeOk none fallback
  | some d =>
      if pyStrip d = [] then
        regenerarDiarizacion cruda backend writeOk (some d) fallback
      else if ((pyStrip d).length : ℤ) <
          pyInt (((pyStrip cruda).length : ℚ) * ratio_minimo) then
        regenerarDiarizacion cruda backend writeOk (some d) fallback
      else ⟨.ok d, some d, 0⟩

/-- The final acceptance gate of main.py lines 131-146, applied only when the
fallback flag is disabled: require a speaker label and
`len(d.strip()) / max(1, len(cruda.strip())) >= ratio_minimo`. -/
def verificacionFinal (cruda : Texto) (fallback : Bool) (ratio_minimo : ℚ)
    (s : PasoSalida) : PasoSalida :=
  match s.resultado with
  | .error _ => s
  | .ok salida =>
      if fallback then s
      else if contieneEtiquetas salida = false then
        ⟨.error .sinEtiquetas, s.cacheFinal, s.llamadas⟩
      else if ((pyStrip salida).length : ℚ) / ((max 1 (pyStrip cruda).length : ℕ) : ℚ)
          < ratio_minimo then
        ⟨.error .ratioInsuficiente, s.cacheFinal, s.llamadas⟩
      else s

/-- The labeled-transcript step of `main` (src/main.py, lines 83-146),
given the raw transcript already produced. -/
def pasoDiarizacion (cruda : Texto) (cache : Option Texto) (fallback : Bool)
    (ratio_minimo : ℚ) (backend : Backend) (writeOk : Bool) : PasoSalida :=
  verificacionFinal cruda fallback ratio_minimo
    (decisionCache cruda cache ratio_minimo backend writeOk fallback)

-- Concrete inputs used in witnesses and counterexamples ------------------

def textoEjemplo : Texto := "hola mundo ejemplo".data

def palabraHola : Texto := "hola".data

/-- Backend that returns each block verbatim. -/
def backendEco : Backend := fun _ _ bloque => bloque

/-- Backend that always returns the empty text (also the model of an API call
that raises or returns `None`). -/
def backendVacio : Backend := fun _ _ _ => []

/-- A 300-character single-word raw transcript. -/
def crudaLarga : Texto := List.replicate 300 'a'

/-- A well-labeled output, long enough to pass every gate for `crudaLarga`. -/
def salidaEtiquetada : Texto := etiquetaEntrevistador ++ '\n' :: List.replicate 300 'b'

/-- Backend that always returns `salidaEtiquetada`. -/
def backendBueno : Backend := fun _ _ _ => salidaEtiquetada

-- ------------------------------------------------------------------
-- Non-blank texts give non-empty word lists and block lists
-- ------------------------------------------------------------------

theorem pyStrip_of_all_ws (t : Texto) (h : ∀ c ∈ t, esEspacio c = true) :
    pyStrip t = [] := by
  unfold pyStrip
  have h1 : t.dropWhile esEspacio = [] := List.dropWhile_eq_nil_iff.mpr h
  simp [h1]

theorem pySplitAux_ne_nil (t : List Char) :
    ∀ acc, (acc ≠ [] ∨ ∃ c ∈ t, esEspacio c = false) → pySplitAux t acc ≠ [] := by
  induction t with
  | nil =>
      intro acc h
      rcases h with h | h
      · simp [pySplitAux, h]
      · simp at h
  | cons c cs ih =>
      intro acc h
      simp only [pySplitAux]
      by_cases hc : esEspacio c = true
      · rw [if_pos hc]
        by_cases ha : acc = []
        · rw [if_pos ha]
          refine ih [] (Or.inr ?_)
          rcases h with h | h
          · exact absurd ha h
          · rcases h with ⟨d, hd, hdf⟩
            rcases List.mem_cons.mp hd with h1 | h1
            · subst h1; exact absurd hc (by simp [hdf])
            · exact ⟨d, h1, hdf⟩
        · rw [if_neg ha]
          simp
      · rw [if_neg hc]
        exact ih (c :: acc) (Or.inl (by simp))

theorem pySplit_ne_nil_of_strip (t : Texto) (h : pyStrip t ≠ []) :
    pySplit t ≠ [] := by
  refine pySplitAux_ne_nil t [] (Or.inr ?_)
  by_contra hno
  push_neg at hno
  refine h (pyStrip_of_all_ws t ?_)
  intro c hc
  by_contra hct
  exact (hno c hc) (by simpa using hct)

theorem dividir_en_bloques_ne_nil (texto : Texto) (mc : Nat)
    (h : pyStrip texto ≠ []) : dividir_en_bloques texto mc ≠ [] := by
  have hw : pySplit texto ≠ [] := pySplit_ne_nil_of_strip texto h
  rw [dividir_en_bloques_eq_map texto mc hw]
  intro hmap
  have hfl := segLoopW_flatten mc (pySplit texto) [] 0
  rw [List.map_eq_nil_iff.mp hmap] at hfl
  simp at hfl
  exact hw hfl

-- ------------------------------------------------------------------
-- Claims C1 and C2
-- ------------------------------------------------------------------

/-- Claim C1: for every string `texto` whose whitespace-separated word list is
non-empty and every `max_chars >= 1`, joining the chunks returned by the
segmenter `_dividir_en_bloques` with single spaces and then splitting on
whitespace yields exactly the same word sequence, in the same order, as
splitting the original text on whitespace. -/
theorem C1_segmentacion_round_trip (texto : Texto) (max_chars : Nat)
    (hw : pySplit texto ≠ []) (hm : 1 ≤ max_chars) :
    pySplit (joinCon [' '] (dividir_en_bloques texto max_chars)) = pySplit texto := by
  rw [dividir_en_bloques_eq_map texto max_chars hw]
  have hgood : ∀ ws ∈ segLoopW max_chars (pySplit texto) [] 0,
      ws ≠ [] ∧ ∀ w ∈ ws, w ≠ [] ∧ ∀ c ∈ w, esEspacio c = false := by
    intro ws hws
    refine ⟨segLoopW_bloques_nonempty _ _ _ _ ws hws, ?_⟩
    intro w hw'
    have hmem : w ∈ (segLoopW max_chars (pySplit texto) [] 0).flatten :=
      List.mem_flatten.mpr ⟨ws, hws, hw'⟩
    rw [segLoopW_flatten] at hmem
    simp only [List.nil_append] at hmem
    exact pySplitAux_words_good texto [] (by simp) w hmem
  rw [pySplit_joinCon_bloques _ hgood, segLoopW_flatten]
  simp

theorem C1_witness :
    (pySplit textoEjemplo ≠ [] ∧ 1 ≤ 5) ∧
    pySplit (joinCon [' '] (dividir_en_bloques textoEjemplo 5)) = pySplit textoEjemplo :=
  ⟨⟨by decide, by decide⟩,
    C1_segmentacion_round_trip textoEjemplo 5 (by decide) (by decide)⟩

/-- Claim C2: for every input text and every `max_chars >= 1`, every chunk
returned by `_dividir_en_bloques` has character length at most `max_chars`,
except a chunk that consists of a single word of the input whose own length
exceeds `max_chars`; such a word is kept whole in its own chunk. -/
theorem C2_presupuesto (texto : Texto) (max_chars : Nat) (hm : 1 ≤ max_chars) :
    ∀ bloque ∈ dividir_en_bloques texto max_chars,
      bloque.length ≤ max_chars ∨
      ∃ w ∈ pySplit texto, bloque = w ∧ max_chars < w.length := by
  intro bloque hb
  by_cases hw : pySplit texto = []
  · rw [dividir_en_bloques, if_pos hw] at hb
    simp at hb
  · rw [dividir_en_bloques_eq_map texto max_chars hw] at hb
    rcases List.mem_map.mp hb with ⟨ws, hws, rfl⟩
    rcases segLoopW_presupuesto max_chars (pySplit texto) [] 0 (by simp [joinCon])
        (Or.inl rfl) ws hws with h | ⟨w, hwseq, hlen⟩
    · exact Or.inl h
    · right
      refine ⟨w, ?_, by simp [hwseq, joinCon], hlen⟩
      have hmem : w ∈ (segLoopW max_chars (pySplit texto) [] 0).flatten :=
        List.mem_flatten.mpr ⟨ws, hws, by simp [hwseq]⟩
      rw [segLoopW_flatten] at hmem
      simpa using hmem

theorem C2_witness :
    (1 ≤ 5 ∧ palabraHola ∈ dividir_en_bloques textoEjemplo 5) ∧
    (palabraHola.length ≤ 5 ∨
      ∃ w ∈ pySplit textoEjemplo, palabraHola = w ∧ 5 < w.length) :=
  ⟨⟨by decide, by decide⟩,
    C2_presupuesto textoEjemplo 5 (by decide) palabraHola (by decide)⟩

-- ------------------------------------------------------------------
-- Structural lemmas about diarizar_transcripcion
-- ------------------------------------------------------------------

theorem diarizar_shape (t : Texto) (b : Backend) (w : Bool) (c : Option Texto) :
    (diarizar_transcripcion t b w c).2.1 = c ∨
    ∃ texto n, diarizar_transcripcion t b w c = (.ok texto, some texto, n) := by
  unfold diarizar_transcripcion
  by_cases h1 : pyStrip t = []
  · rw [if_pos h1]
    exact Or.inl rfl
  · rw [if_neg h1]
    by_cases h2 : dividir_en_bloques t 14000 = []
    · rw [if_pos h2]
      exact Or.inl rfl
    · rw [if_neg h2]
      rcases hp : procesarBloques b (dividir_en_bloques t 14000).length 1
          (dividir_en_bloques t 14000) with ⟨r, n⟩
      cases r with
      | error e => exact Or.inl rfl
      | ok partes =>
          dsimp only
          by_cases h3 : (joinCon ['\n', '\n'] partes).length
              < max 200 (t.length * 55 / 100)
          · rw [if_pos h3]
            exact Or.inl rfl
          · rw [if_neg h3]
            cases w with
            | false => exact Or.inl rfl
            | true => exact Or.inr ⟨_, _, rfl⟩

theorem diarizar_error_cache (t : Texto) (b : Backend) (w : Bool) (c : Option Texto)
    (e : PyExc) (h : (diarizar_transcripcion t b w c).1 = .error e) :
    (diarizar_transcripcion t b w c).2.1 = c := by
  rcases diarizar_shape t b w c with hc | ⟨texto, n, heq⟩
  · exact hc
  · rw [heq] at h
    simp at h

theorem procesarBloques_error_of_empty (backend : Backend) (total : Nat) :
    ∀ (l : List Texto) (k : Nat),
      (∃ i, ∃ hi : i < l.length, pyStrip (backend (k + i) total (l.get ⟨i, hi⟩)) = []) →
      (procesarBloques backend total k l).1 = .error () := by
  intro l
  induction l with
  | nil =>
      intro k h
      rcases h with ⟨i, hi, _⟩
      simp at hi
  | cons b resto ih =>
      intro k h
      simp only [procesarBloques]
      by_cases hb : pyStrip (backend k total b) = []
      · rw [if_pos hb]
      · rw [if_neg hb]
        rcases h with ⟨i, hi, hempty⟩
        cases i with
        | zero =>
            simp only [List.get, Nat.add_zero] at hempty
            exact absurd hempty hb
        | succ j =>
            have hj : j < resto.length := by simpa using hi
            have hkj : k + (j + 1) = (k + 1) + j := by omega
            rw [hkj] at hempty
            have herr : (procesarBloques backend total (k + 1) resto).1 = .error () :=
              ih (k + 1) ⟨j, hj, hempty⟩
            rcases hp : procesarBloques backend total (k + 1) resto with ⟨r, n⟩
            rw [hp] at herr
            cases r with
            | error e => simp
            | ok partes => simp at herr

-- ------------------------------------------------------------------
-- Claim C3
-- ------------------------------------------------------------------

/-- Claim C3 as stated is false on the code: the completeness gate of
`diarizar_transcripcion` (line 174) is not `sourceRatio >= 0.85`.  Concretely,
for the 4-character raw transcript "hola" with a backend that returns the
block verbatim, every per-chunk call succeeds and `sourceRatio = 1 >= 0.85`,
yet the orchestrator raises (because `4 < max(200, int(4*0.55)) = 200`). -/
theorem C3_counterexample :
    (diarizar_transcripcion palabraHola backendEco true none).1
        = .error .runtimeError
    ∧ ¬ (sourceRatio palabraHola palabraHola < 85 / 100) := by
  constructor
  · rfl
  · show ¬ ((4 : ℚ) / 4 < 85 / 100)
    norm_num

/-- Claim C3 amended: for every non-blank raw transcript whose per-chunk
backend calls all succeed, `diarizar_transcripcion` (with the file write
succeeding) raises an error if and only if the length of the concatenated
labeled text is below `max(200, int(len(raw) * 0.55))` — a hardcoded floor of
200 characters and a hardcoded ratio 0.55, not the configurable
`minRatio = 0.85`. -/
theorem C3_umbral_real (transcripcion : Texto) (backend : Backend)
    (cache : Option Texto) (partes : List Texto) (n : Nat)
    (hnb : pyStrip transcripcion ≠ [])
    (hok : procesarBloques backend (dividir_en_bloques transcripcion 14000).length 1
        (dividir_en_bloques transcripcion 14000) = (.ok partes, n)) :
    (diarizar_transcripcion transcripcion backend true cache).1 =
      (if (joinCon ['\n', '\n'] partes).length
          < max 200 (transcripcion.length * 55 / 100)
       then .error .runtimeError
       else .ok (joinCon ['\n', '\n'] partes)) := by
  unfold diarizar_transcripcion
  rw [if_neg hnb, if_neg (dividir_en_bloques_ne_nil transcripcion 14000 hnb), hok]
  dsimp only
  by_cases h3 : (joinCon ['\n', '\n'] partes).length
      < max 200 (transcripcion.length * 55 / 100)
  · rw [if_pos h3, if_pos h3]
  · rw [if_neg h3, if_neg h3]
    rfl

theorem C3_umbral_real_witness :
    (pyStrip palabraHola ≠ [] ∧
      procesarBloques backendEco (dividir_en_bloques palabraHola 14000).length 1
        (dividir_en_bloques palabraHola 14000) = (.ok [palabraHola], 1)) ∧
    (diarizar_transcripcion palabraHola backendEco true none).1 =
      (if (joinCon ['\n', '\n'] [palabraHola]).length
          < max 200 (palabraHola.length * 55 / 100)
       then .error .runtimeError
       else .ok (joinCon ['\n', '\n'] [palabraHola])) :=
  ⟨⟨by decide, by rfl⟩,
    C3_umbral_real palabraHola backendEco none [palabraHola] 1 (by decide) (by rfl)⟩

-- ------------------------------------------------------------------
-- Claim C7
-- ------------------------------------------------------------------

/-- Claim C7: for every non-blank raw transcript and every block index `i`, if
the backend's response for block `i` is empty after trimming, then
`diarizar_transcripcion` raises an error (a RuntimeError) and nothing is
persisted: the cache is left unchanged. -/
theorem C7_respuesta_vacia (transcripcion : Texto) (backend : Backend)
    (writeOk : Bool) (cache : Option Texto)
    (hnb : pyStrip transcripcion ≠ [])
    (i : Nat) (hi : i < (dividir_en_bloques transcripcion 14000).length)
    (hempty : pyStrip (backend (1 + i) (dividir_en_bloques transcripcion 14000).length
        ((dividir_en_bloques transcripcion 14000).get ⟨i, hi⟩)) = []) :
    (diarizar_transcripcion transcripcion backend writeOk cache).1
        = .error .runtimeError ∧
    (diarizar_transcripcion transcripcion backend writeOk cache).2.1 = cache := by
  have herr := procesarBloques_error_of_empty backend
    (dividir_en_bloques transcripcion 14000).length
    (dividir_en_bloques transcripcion 14000) 1 ⟨i, hi, hempty⟩
  have hgoal : (diarizar_transcripcion transcripcion backend writeOk cache).1
      = .error .runtimeError := by
    unfold diarizar_transcripcion
    rw [if_neg hnb, if_neg (dividir_en_bloques_ne_nil transcripcion 14000 hnb)]
    rcases hp : procesarBloques backend (dividir_en_bloques transcripcion 14000).length 1
        (dividir_en_bloques transcripcion 14000) with ⟨r, n⟩
    rw [hp] at herr
    cases r with
    | error e => simp
    | ok partes => simp at herr
  exact ⟨hgoal, diarizar_error_cache _ _ _ _ _ hgoal⟩

theorem C7_respuesta_vacia_witness :
    (pyStrip palabraHola ≠ [] ∧
      ∃ hi : 0 < (dividir_en_bloques palabraHola 14000).length,
        pyStrip (backendVacio (1 + 0) (dividir_en_bloques palabraHola 14000).length
          ((dividir_en_bloques palabraHola 14000).get ⟨0, hi⟩)) = []) ∧
    ((diarizar_transcripcion palabraHola backendVacio true none).1
        = .error .runtimeError ∧
      (diarizar_transcripcion palabraHola backendVacio true none).2.1 = none) :=
  ⟨⟨by decide, by decide, by rfl⟩,
    C7_respuesta_vacia palabraHola backendVacio true none (by decide) 0
      (by decide) (by rfl)⟩

-- ------------------------------------------------------------------
-- Lemmas about pyInt and the controller's checks
-- ------------------------------------------------------------------

theorem pyInt_nonpos (q : ℚ) (h : q ≤ 0) : pyInt q ≤ 0 := by
  unfold pyInt
  by_cases hq : q < 0
  · rw [if_pos hq]
    have h0 : (0 : ℤ) ≤ ⌊-q⌋ := Int.le_floor.mpr (by simpa using le_of_lt hq)
    omega
  · rw [if_neg hq]
    have hq0 : q = 0 := le_antisymm h (not_lt.mp hq)
    simp [hq0]

theorem pyInt_le_of_le_nat (q : ℚ) (m : ℕ) (h : q ≤ (m : ℚ)) : pyInt q ≤ (m : ℤ) := by
  unfold pyInt
  by_cases hq : q < 0
  · rw [if_pos hq]
    have h0 : (0 : ℤ) ≤ ⌊-q⌋ := Int.le_floor.mpr (by simpa using le_of_lt hq)
    omega
  · rw [if_neg hq]
    calc ⌊q⌋ ≤ ⌊(m : ℚ)⌋ := Int.floor_le_floor h
      _ = (m : ℤ) := Int.floor_natCast m

theorem pyInt_intCast (z : ℤ) : pyInt ((z : ℤ) : ℚ) = z := by
  unfold pyInt
  by_cases hz : ((z : ℤ) : ℚ) < 0
  · rw [if_pos hz, ← Int.cast_neg, Int.floor_intCast]
    omega
  · rw [if_neg hz, Int.floor_intCast]

/-- If the acceptance-gate ratio test passes, the staleness ratio test of
line 101 passes as well. -/
theorem frescura_de_aceptacion (sd sc : ℕ) (r : ℚ)
    (h : r ≤ (sd : ℚ) / ((max 1 sc : ℕ) : ℚ)) :
    ¬ ((sd : ℤ) < pyInt ((sc : ℚ) * r)) := by
  rw [not_lt]
  apply pyInt_le_of_le_nat
  have hM : (0 : ℚ) < ((max 1 sc : ℕ) : ℚ) := by
    have : (1 : ℕ) ≤ max 1 sc := Nat.le_max_left 1 sc
    exact_mod_cast Nat.lt_of_lt_of_le Nat.zero_lt_one this
  have h1 : r * ((max 1 sc : ℕ) : ℚ) ≤ (sd : ℚ) := (le_div_iff₀ hM).mp h
  rcases le_or_lt 0 r with hr | hr
  · have hscM : ((sc : ℕ) : ℚ) ≤ ((max 1 sc : ℕ) : ℚ) := by
      exact_mod_cast Nat.le_max_right 1 sc
    nlinarith
  · have h2 : (sc : ℚ) * r ≤ 0 :=
      mul_nonpos_of_nonneg_of_nonpos (by positivity) (le_of_lt hr)
    have h3 : (0 : ℚ) ≤ (sd : ℚ) := by positivity
    linarith

/-- Reuse path of the controller: with a non-blank cached artifact whose
stripped length passes the staleness ratio check, the step reduces to the
final gate applied to the cached text, with zero backend calls. -/
theorem paso_con_reuso (cruda d : Texto) (fallback : Bool) (ratio : ℚ)
    (backend : Backend) (writeOk : Bool)
    (hnb : ¬ pyStrip d = [])
    (hfresco : ¬ (((pyStrip d).length : ℤ) <
        pyInt (((pyStrip cruda).length : ℚ) * ratio))) :
    pasoDiarizacion cruda (some d) fallback ratio backend writeOk =
      verificacionFinal cruda fallback ratio ⟨.ok d, some d, 0⟩ := by
  unfold pasoDiarizacion decisionCache
  dsimp only
  rw [if_neg hnb, if_neg hfresco]

theorem verificacion_eval (cruda salida : Texto) (fallback : Bool) (ratio : ℚ)
    (c : Option Texto) (n : Nat) :
    verificacionFinal cruda fallback ratio ⟨.ok salida, c, n⟩ =
      (if fallback then (⟨.ok salida, c, n⟩ : PasoSalida)
       else if contieneEtiquetas salida = false then ⟨.error .sinEtiquetas, c, n⟩
       else if ((pyStrip salida).length : ℚ) / ((max 1 (pyStrip cruda).length : ℕ) : ℚ)
           < ratio then ⟨.error .ratioInsuficiente, c, n⟩
       else ⟨.ok salida, c, n⟩) := by
  unfold verificacionFinal
  rfl

-- ------------------------------------------------------------------
-- Claim C4
-- ------------------------------------------------------------------

/-- Claim C4 as stated is false on the code: the staleness check of main.py
(lines 88 and 101) tests only non-blankness and the length ratio, not the
presence of a speaker-label token.  Concretely, caching the raw 300-character
transcript itself (non-blank, ratio 1, no label) the controller reuses it with
zero backend calls and then fails fatally at the final gate (`sinEtiquetas`)
instead of regenerating — even though the available backend (second conjunct)
would have produced a perfectly labeled transcript had regeneration been
attempted. -/
theorem C4_counterexample :
    pasoDiarizacion crudaLarga (some crudaLarga) false (85 / 100) backendBueno true =
      ⟨.error .sinEtiquetas, some crudaLarga, 0⟩ ∧
    (pasoDiarizacion crudaLarga none false (85 / 100) backendBueno true).resultado =
      .ok salidaEtiquetada := by
  have hstrip : (pyStrip crudaLarga).length = 300 := by decide
  have hfresco : ¬ (((pyStrip crudaLarga).length : ℤ) <
      pyInt (((pyStrip crudaLarga).length : ℚ) * (85 / 100))) := by
    rw [hstrip, show ((300 : ℕ) : ℚ) * (85 / 100) = ((255 : ℤ) : ℚ) by norm_num,
      pyInt_intCast]
    norm_num
  constructor
  · rw [paso_con_reuso crudaLarga crudaLarga false (85 / 100) backendBueno true
        (by decide) hfresco, verificacion_eval]
    rw [if_neg Bool.false_ne_true]
    rw [if_pos (by decide : contieneEtiquetas crudaLarga = false)]
  · have hd : diarizar_transcripcion crudaLarga backendBueno true none =
        (.ok salidaEtiquetada, some salidaEtiquetada, 1) := by rfl
    have hsal : (pyStrip salidaEtiquetada).length = 314 := by decide
    unfold pasoDiarizacion decisionCache regenerarDiarizacion
    dsimp only
    rw [hd]
    dsimp only
    rw [verificacion_eval]
    rw [if_neg Bool.false_ne_true]
    rw [if_neg (by decide : ¬ (contieneEtiquetas salidaEtiquetada = false))]
    rw [if_neg ?hratio]
    case hratio =>
      rw [hsal, hstrip, show (max 1 300 : ℕ) = 300 from rfl]
      norm_num

/-- Claim C4 amended: a non-blank cached labeled artifact is reused as-is,
with zero backend calls, whenever its stripped length is at least
`int(len(cruda.strip()) * ratio_minimo)`; the speaker-label check is not part
of the staleness decision.  The reused text then only passes through the final
gate: with the fallback flag disabled, a label-less reused artifact yields the
fatal `sinEtiquetas` error (no regeneration), a too-short one the fatal
`ratioInsuficiente` error, and otherwise it is accepted unchanged. -/
theorem C4_reuso (cruda d : Texto) (fallback : Bool) (ratio : ℚ)
    (backend : Backend) (writeOk : Bool)
    (hnb : ¬ pyStrip d = [])
    (hfresco : ¬ (((pyStrip d).length : ℤ) <
        pyInt (((pyStrip cruda).length : ℚ) * ratio))) :
    pasoDiarizacion cruda (some d) fallback ratio backend writeOk =
      (if fallback then (⟨.ok d, some d, 0⟩ : PasoSalida)
       else if contieneEtiquetas d = false then ⟨.error .sinEtiquetas, some d, 0⟩
       else if ((pyStrip d).length : ℚ) / ((max 1 (pyStrip cruda).length : ℕ) : ℚ)
           < ratio then ⟨.error .ratioInsuficiente, some d, 0⟩
       else ⟨.ok d, some d, 0⟩) := by
  rw [paso_con_reuso cruda d fallback ratio backend writeOk hnb hfresco,
    verificacion_eval]

theorem C4_reuso_witness :
    (¬ pyStrip salidaEtiquetada = [] ∧
      ¬ (((pyStrip salidaEtiquetada).length : ℤ) <
        pyInt (((pyStrip crudaLarga).length : ℚ) * (85 / 100)))) ∧
    pasoDiarizacion crudaLarga (some salidaEtiquetada) false (85 / 100)
        backendBueno true =
      (if false then (⟨.ok salidaEtiquetada, some salidaEtiquetada, 0⟩ : PasoSalida)
       else if contieneEtiquetas salidaEtiquetada = false then
         ⟨.error .sinEtiquetas, some salidaEtiquetada, 0⟩
       else if ((pyStrip salidaEtiquetada).length : ℚ)
            / ((max 1 (pyStrip crudaLarga).length : ℕ) : ℚ) < 85 / 100 then
         ⟨.error .ratioInsuficiente, some salidaEtiquetada, 0⟩
       else ⟨.ok salidaEtiquetada, some salidaEtiquetada, 0⟩) := by
  have hfresco : ¬ (((pyStrip salidaEtiquetada).length : ℤ) <
      pyInt (((pyStrip crudaLarga).length : ℚ) * (85 / 100))) := by
    rw [show (pyStrip salidaEtiquetada).length = 314 from by decide,
      show (pyStrip crudaLarga).length = 300 from by decide,
      show ((300 : ℕ) : ℚ) * (85 / 100) = ((255 : ℤ) : ℚ) by norm_num,
      pyInt_intCast]
    norm_num
  exact ⟨⟨by decide, hfresco⟩,
    C4_reuso crudaLarga salidaEtiquetada false (85 / 100) backendBueno true
      (by decide) hfresco⟩

-- ------------------------------------------------------------------
-- Claims C5, C6, C10
-- ------------------------------------------------------------------

/-- Claim C5: when regeneration fails with a RuntimeError (any labeling
failure) and the fallback flag is enabled, the controller returns the raw
transcript's text verbatim as the labeled output and the run succeeds (READY);
the acceptance gate (labels + ratio) is not applied to that fallback output —
the step returns `.ok cruda` although the raw text contains no labels. -/
theorem C5_fallback_activado (cruda : Texto) (backend : Backend) (writeOk : Bool)
    (ratio_minimo : ℚ)
    (hfail : (diarizar_transcripcion cruda backend writeOk none).1
        = .error .runtimeError) :
    ∃ n, pasoDiarizacion cruda none true ratio_minimo backend writeOk =
      ⟨.ok cruda, none, n⟩ := by
  have hcache := diarizar_error_cache cruda backend writeOk none .runtimeError hfail
  rcases hd : diarizar_transcripcion cruda backend writeOk none with ⟨r, c2, n⟩
  rw [hd] at hfail hcache
  dsimp only at hfail hcache
  subst hfail
  subst hcache
  refine ⟨n, ?_⟩
  unfold pasoDiarizacion decisionCache regenerarDiarizacion
  dsimp only
  rw [hd]
  rfl

theorem C5_witness :
    (diarizar_transcripcion palabraHola backendVacio true none).1
        = .error .runtimeError ∧
    ∃ n, pasoDiarizacion palabraHola none true (85 / 100) backendVacio true =
      ⟨.ok palabraHola, none, n⟩ :=
  ⟨by rfl, C5_fallback_activado palabraHola backendVacio true (85 / 100) (by rfl)⟩

/-- Claim C6: when labeling fails (RuntimeError from `diarizar_transcripcion`,
i.e. any per-chunk or global validation failure) and the fallback flag is
disabled, the controller fails fatally and no labeled artifact is persisted:
the cache is still empty afterwards (the orchestrator writes the output file
only after every chunk is validated non-empty and the completeness check has
passed, so on failure the cache state is unchanged). -/
theorem C6_fallback_desactivado (cruda : Texto) (backend : Backend)
    (writeOk : Bool) (ratio_minimo : ℚ)
    (hfail : (diarizar_transcripcion cruda backend writeOk none).1
        = .error .runtimeError) :
    (pasoDiarizacion cruda none false ratio_minimo backend writeOk).resultado
        = .error .fatalDiarizacion ∧
    (pasoDiarizacion cruda none false ratio_minimo backend writeOk).cacheFinal
        = none := by
  have hcache := diarizar_error_cache cruda backend writeOk none .runtimeError hfail
  rcases hd : diarizar_transcripcion cruda backend writeOk none with ⟨r, c2, n⟩
  rw [hd] at hfail hcache
  dsimp only at hfail hcache
  subst hfail
  subst hcache
  have hpaso : pasoDiarizacion cruda none false ratio_minimo backend writeOk =
      ⟨.error .fatalDiarizacion, none, n⟩ := by
    unfold pasoDiarizacion decisionCache regenerarDiarizacion
    dsimp only
    rw [hd]
    rfl
  rw [hpaso]
  exact ⟨rfl, rfl⟩

theorem C6_witness :
    (diarizar_transcripcion palabraHola backendVacio true none).1
        = .error .runtimeError ∧
    ((pasoDiarizacion palabraHola none false (85 / 100) backendVacio true).resultado
        = .error .fatalDiarizacion ∧
      (pasoDiarizacion palabraHola none false (85 / 100) backendVacio true).cacheFinal
        = none) :=
  ⟨by rfl, C6_fallback_desactivado palabraHola backendVacio true (85 / 100) (by rfl)⟩

/-- Claim C10 (implicit): the controller's fallback substitution only applies
to `RuntimeError`; any other exception raised during regeneration (here, the
`OSError` of a failing output-file write) propagates and aborts the run even
with the fallback flag enabled. -/
theorem C10_solo_runtime_error (cruda : Texto) (backend : Backend)
    (writeOk : Bool) (ratio_minimo : ℚ) (fallback : Bool)
    (hfail : (diarizar_transcripcion cruda backend writeOk none).1
        = .error .osError) :
    (pasoDiarizacion cruda none fallback ratio_minimo backend writeOk).resultado
        = .error .osError := by
  have hcache := diarizar_error_cache cruda backend writeOk none .osError hfail
  rcases hd : diarizar_transcripcion cruda backend writeOk none with ⟨r, c2, n⟩
  rw [hd] at hfail hcache
  dsimp only at hfail hcache
  subst hfail
  subst hcache
  have hpaso : pasoDiarizacion cruda none fallback ratio_minimo backend writeOk =
      ⟨.error .osError, none, n⟩ := by
    unfold pasoDiarizacion decisionCache regenerarDiarizacion
    dsimp only
    rw [hd]
    rfl
  rw [hpaso]

theorem C10_witness :
    (diarizar_transcripcion crudaLarga backendBueno false none).1
        = .error .osError ∧
    (pasoDiarizacion crudaLarga none true (85 / 100) backendBueno false).resultado
        = .error .osError :=
  ⟨by rfl, C10_solo_runtime_error crudaLarga backendBueno false (85 / 100) true (by rfl)⟩

-- ------------------------------------------------------------------
-- Claim C8
-- ------------------------------------------------------------------

/-- Claim C8: given a cached labeled artifact that is non-blank and passes the
acceptance gate (a speaker-label token is present and the ratio meets the
minimum), running the controller twice with the same inputs reuses the cache
both times: zero backend calls each run, identical labeled text both times,
and an unchanged cache between the runs. -/
theorem C8_idempotencia (cruda d : Texto) (fallback : Bool) (ratio : ℚ)
    (backend : Backend) (writeOk : Bool)
    (hnb : ¬ pyStrip d = [])
    (het : contieneEtiquetas d = true)
    (hr : ratio ≤ ((pyStrip d).length : ℚ)
        / ((max 1 (pyStrip cruda).length : ℕ) : ℚ)) :
    pasoDiarizacion cruda (some d) fallback ratio backend writeOk =
      ⟨.ok d, some d, 0⟩ ∧
    pasoDiarizacion cruda
        (pasoDiarizacion cruda (some d) fallback ratio backend writeOk).cacheFinal
        fallback ratio backend writeOk = ⟨.ok d, some d, 0⟩ := by
  have hfresco :=
    frescura_de_aceptacion (pyStrip d).length (pyStrip cruda).length ratio hr
  have h1 : pasoDiarizacion cruda (some d) fallback ratio backend writeOk =
      ⟨.ok d, some d, 0⟩ := by
    rw [paso_con_reuso cruda d fallback ratio backend writeOk hnb hfresco,
      verificacion_eval]
    cases fallback with
    | true => rfl
    | false =>
        rw [if_neg Bool.false_ne_true, if_neg (by simp [het]),
          if_neg (not_lt.mpr hr)]
  refine ⟨h1, ?_⟩
  rw [h1]
  exact h1

theorem C8_witness :
    (¬ pyStrip salidaEtiquetada = [] ∧ contieneEtiquetas salidaEtiquetada = true ∧
      (85 / 100 : ℚ) ≤ ((pyStrip salidaEtiquetada).length : ℚ)
        / ((max 1 (pyStrip crudaLarga).length : ℕ) : ℚ)) ∧
    (pasoDiarizacion crudaLarga (some salidaEtiquetada) false (85 / 100)
        backendBueno true = ⟨.ok salidaEtiquetada, some salidaEtiquetada, 0⟩ ∧
      pasoDiarizacion crudaLarga
          (pasoDiarizacion crudaLarga (some salidaEtiquetada) false (85 / 100)
            backendBueno true).cacheFinal
          false (85 / 100) backendBueno true =
        ⟨.ok salidaEtiquetada, some salidaEtiquetada, 0⟩) := by
  have hr : (85 / 100 : ℚ) ≤ ((pyStrip salidaEtiquetada).length : ℚ)
      / ((max 1 (pyStrip crudaLarga).length : ℕ) : ℚ) := by
    rw [show (pyStrip salidaEtiquetada).length = 314 from by decide,
      show (pyStrip crudaLarga).length = 300 from by decide,
      show (max 1 300 : ℕ) = 300 from rfl]
    norm_num
  exact ⟨⟨by decide, by decide, hr⟩,
    C8_idempotencia crudaLarga salidaEtiquetada false (85 / 100) backendBueno true
      (by decide) (by decide) hr⟩

-- ------------------------------------------------------------------
-- Claim C9
-- ------------------------------------------------------------------

/-- Claim C9 is false on the code: main.py line 41 reads the minimum-ratio
configuration value with `float(os.getenv("DIARIZATION_MIN_RATIO", "0.85"))`
and performs no range validation at all — there is no configuration error for
values outside (0, 1].  Concretely, with the out-of-range value -1 the
pipeline proceeds (no startup error) and even accepts a cached artifact,
finishing with a normal `.ok` result. -/
theorem C9_counterexample :
    leerRatioMinimo (some (-1)) = -1 ∧
    pasoDiarizacion crudaLarga (some salidaEtiquetada) false
        (leerRatioMinimo (some (-1))) backendBueno true =
      ⟨.ok salidaEtiquetada, some salidaEtiquetada, 0⟩ := by
  constructor
  · rfl
  · have hfresco : ¬ (((pyStrip salidaEtiquetada).length : ℤ) <
        pyInt (((pyStrip crudaLarga).length : ℚ) * leerRatioMinimo (some (-1)))) := by
      rw [show (pyStrip salidaEtiquetada).length = 314 from by decide,
        show (pyStrip crudaLarga).length = 300 from by decide,
        show ((300 : ℕ) : ℚ) * leerRatioMinimo (some (-1)) = ((-300 : ℤ) : ℚ) by
          norm_num [leerRatioMinimo, Option.getD_some],
        pyInt_intCast]
      norm_num
    rw [paso_con_reuso crudaLarga salidaEtiquetada false (leerRatioMinimo (some (-1)))
        backendBueno true (by decide) hfresco, verificacion_eval]
    rw [if_neg Bool.false_ne_true,
      if_neg (by decide : ¬ (contieneEtiquetas salidaEtiquetada = false)),
      if_neg ?hratio]
    case hratio =>
      rw [show (pyStrip salidaEtiquetada).length = 314 from by decide,
        show (pyStrip crudaLarga).length = 300 from by decide,
        show (max 1 300 : ℕ) = 300 from rfl]
      norm_num [leerRatioMinimo, Option.getD_some]

/-- Claim C9 amended: the externally supplied minimum-ratio value is used
exactly as parsed — the pipeline performs no range validation and raises no
configuration error.  In particular a non-positive value (outside the spec's
interval (0, 1]) reaches both ratio checks and makes every non-blank cached
artifact containing a speaker label be accepted, the run proceeding normally. -/
theorem C9_sin_validacion (q : ℚ) (cruda d : Texto) (backend : Backend)
    (writeOk : Bool)
    (hq : q ≤ 0) (hnb : ¬ pyStrip d = []) (het : contieneEtiquetas d = true) :
    pasoDiarizacion cruda (some d) false (leerRatioMinimo (some q)) backend writeOk =
      ⟨.ok d, some d, 0⟩ := by
  have hlr : leerRatioMinimo (some q) = q := rfl
  have hfresco : ¬ (((pyStrip d).length : ℤ) <
      pyInt (((pyStrip cruda).length : ℚ) * leerRatioMinimo (some q))) := by
    rw [hlr, not_lt]
    calc pyInt (((pyStrip cruda).length : ℚ) * q)
        ≤ 0 := pyInt_nonpos _ (mul_nonpos_of_nonneg_of_nonpos (by positivity) hq)
      _ ≤ ((pyStrip d).length : ℤ) := by positivity
  rw [paso_con_reuso cruda d false (leerRatioMinimo (some q)) backend writeOk
      hnb hfresco, verificacion_eval]
  rw [if_neg Bool.false_ne_true, if_neg (by simp [het]), if_neg ?hratio]
  case hratio =>
    rw [hlr, not_lt]
    calc q ≤ 0 := hq
      _ ≤ ((pyStrip d).length : ℚ)
          / ((max 1 (pyStrip cruda).length : ℕ) : ℚ) := by positivity

theorem C9_sin_validacion_witness :
    ((-1 : ℚ) ≤ 0 ∧ ¬ pyStrip salidaEtiquetada = [] ∧
      contieneEtiquetas salidaEtiquetada = true) ∧
    pasoDiarizacion crudaLarga (some salidaEtiquetada) false
        (leerRatioMinimo (some (-1))) backendVacio true =
      ⟨.ok salidaEtiquetada, some salidaEtiquetada, 0⟩ :=
  ⟨⟨by norm_num, by decide, by decide⟩,
    C9_sin_validacion (-1) crudaLarga salidaEtiquetada backendVacio true
      (by norm_num) (by decide) (by decide)⟩
